import Mathlib

/-!
Verification of the lt-open-data-sdk core against its specification.

The definitions below are shallow embeddings of the TypeScript sources:
  * `src/builder/types.ts`, `src/builder/FilterBuilder.ts` — the filter
    expression model and its precedence-aware serializer;
  * `src/builder/QueryBuilder.ts` (re-exported from `src/builder/index.ts`)
    — the query compiler;
  * `src/client/auth.ts` — the token cache;
  * `src/client/SpintaClient.ts` — pagination, namespace discovery, change log;
  * `src/cli/crawler.ts` — sampling-based type inference.

JavaScript machine doubles are modelled as `Int` where the code only ever
handles integral values (limits, timestamps, `expires_in`); strings are Lean
`String`s; `undefined`/`null`-able values are `Option`s; thrown errors are
explicit error results.
-/

/-! ## Filter expression model (`src/builder/types.ts`) -/

/-- `ComparisonOperator` from `types.ts`: `'eq' | 'ne' | 'lt' | 'le' | 'gt' | 'ge'`. -/
inductive ComparisonOperator where
  | eq | ne | lt | le | gt | ge
deriving DecidableEq, Repr

/-- `StringOperator` from `types.ts`: `'contains' | 'startswith'`.
These are the only two members of the union in the source. -/
inductive StringOperator where
  | contains | startswith
deriving DecidableEq, Repr

/-- The wire name of a `StringOperator`, as used by `filterToString`
(`expr.operator` is the literal string in TypeScript). -/
def stringOperatorName : StringOperator → String
  | .contains => "contains"
  | .startswith => "startswith"

/-- The subset of JavaScript `unknown` values that `formatValue`
(`FilterBuilder.ts`, lines 115-143) can receive from the claims under
study: `null`, strings, booleans and integral numbers.  The `Date`,
object and symbol branches of `formatValue` are not exercised by any
claim and are not modelled. -/
inductive JSValue where
  | vNull
  | vStr (s : String)
  | vBool (b : Bool)
  | vNum (n : Int)
deriving DecidableEq, Repr

/-- `FilterExpression` from `types.ts`: the tagged union
`ComparisonNode | StringOpNode | AndNode | OrNode`.  There is no array-op
node in the source union. -/
inductive FilterExpression where
  | comparison (field : String) (operator : ComparisonOperator) (value : JSValue)
  | string_op (field : String) (operator : StringOperator) (value : String)
  | and (left right : FilterExpression)
  | or (left right : FilterExpression)
deriving DecidableEq, Repr

/-- The `type` discriminant string of a node (`expr.type` in TypeScript). -/
def FilterExpression.typeName : FilterExpression → String
  | .comparison _ _ _ => "comparison"
  | .string_op _ _ _ => "string_op"
  | .and _ _ => "and"
  | .or _ _ => "or"

/-- A leaf node: produced by the `FieldFilter` methods (comparison or
string-op), as opposed to the `and`/`or` combinators. -/
def FilterExpression.isLeaf : FilterExpression → Bool
  | .comparison _ _ _ => true
  | .string_op _ _ _ => true
  | _ => false

/-! ## Value formatting (`src/builder/FilterBuilder.ts`, `formatValue`) -/

/-- UTF-8 bytes of a code point, used by `encodeURIComponent`. -/
def utf8Bytes (n : Nat) : List Nat :=
  if n < 0x80 then [n]
  else if n < 0x800 then [0xC0 + n / 64, 0x80 + n % 64]
  else if n < 0x10000 then [0xE0 + n / 4096, 0x80 + n / 64 % 64, 0x80 + n % 64]
  else [0xF0 + n / 262144, 0x80 + n / 4096 % 64, 0x80 + n / 64 % 64, 0x80 + n % 64]

/-- Upper-case hexadecimal digit, as produced by `encodeURIComponent`. -/
def hexDigit (n : Nat) : Char :=
  if n < 10 then Char.ofNat (48 + n) else Char.ofNat (65 + (n - 10))

/-- Characters `encodeURIComponent` leaves unescaped:
`A-Z a-z 0-9 - _ . ! ~ * ' ( )`. -/
def isUriUnreserved (c : Char) : Bool :=
  c.isAlpha || c.isDigit ||
    c ∈ ['-', '_', '.', '!', '~', '*', Char.ofNat 39, '(', ')']

/-- JavaScript's `encodeURIComponent`: percent-encodes every character
outside the unreserved set, byte by byte of its UTF-8 encoding, with
upper-case hex digits. -/
def encodeURIComponent (s : String) : String :=
  String.mk (s.data.flatMap fun c =>
    if isUriUnreserved c then [c]
    else (utf8Bytes c.toNat).flatMap fun b => ['%', hexDigit (b / 16), hexDigit (b % 16)])

/-- `value.replace(/"/g, '\\"')` — escape every internal double quote. -/
def escapeQuotes (s : String) : String :=
  String.mk (s.data.flatMap fun c =>
    if c = Char.ofNat 34 then [Char.ofNat 92, Char.ofNat 34] else [c])

/-- The double-quote character as a one-character string. -/
def dq : String := String.mk [Char.ofNat 34]

/-- `formatValue` from `FilterBuilder.ts` (lines 115-143), on the modelled
value subset: `null` renders as `null`; strings are quote-escaped, wrapped
in quotes and percent-encoded; booleans as `true`/`false`; numbers via
`String(value)`. -/
def formatValue : JSValue → String
  | .vNull => "null"
  | .vStr s => encodeURIComponent (dq ++ escapeQuotes s ++ dq)
  | .vBool b => if b then "true" else "false"
  | .vNum n => toString n

/-! ## Serialization (`filterToString`, `needsParens`) -/

/-- `needsParens` from `FilterBuilder.ts` (lines 149-152):
`parentType === 'and' && child.type === 'or'`. -/
def needsParens (child : FilterExpression) (parentType : String) : Bool :=
  parentType == "and" && child.typeName == "or"

/-- `filterToString` from `FilterBuilder.ts` (lines 157-207). -/
def filterToString : FilterExpression → String
  | .comparison field op value =>
    let v := formatValue value
    match op with
    | .eq => field ++ "=" ++ v
    | .ne => field ++ "!=" ++ v
    | .lt => field ++ "<" ++ v
    | .le => field ++ "<=" ++ v
    | .gt => field ++ ">" ++ v
    | .ge => field ++ ">=" ++ v
  | .string_op field op value =>
    field ++ "." ++ stringOperatorName op ++ "(" ++ formatValue (.vStr value) ++ ")"
  | .and l r =>
    let leftStr := if needsParens l "and" then "(" ++ filterToString l ++ ")" else filterToString l
    let rightStr := if needsParens r "and" then "(" ++ filterToString r ++ ")" else filterToString r
    leftStr ++ "&" ++ rightStr
  | .or l r =>
    let leftStr := if needsParens l "or" then "(" ++ filterToString l ++ ")" else filterToString l
    let rightStr := if needsParens r "or" then "(" ++ filterToString r ++ ")" else filterToString r
    leftStr ++ "|" ++ rightStr

/-- The public methods of the `FieldFilter` class in `FilterBuilder.ts`
(lines 44-100), in declaration order.  These are all the leaf-building
operators the filter model provides. -/
def fieldFilterMethods : List String :=
  ["eq", "ne", "lt", "le", "gt", "ge", "contains", "startswith"]

/-- `Array.prototype.join(sep)` for JavaScript string arrays, which is the
joining primitive of `toQueryString` and `filterToString` callers. -/
def joinSep (sep : String) : List String → String
  | [] => ""
  | [x] => x
  | x :: y :: rest => x ++ sep ++ joinSep sep (y :: rest)

/-- A node is an `or` node. -/
def FilterExpression.isOrNode : FilterExpression → Bool
  | .or _ _ => true
  | _ => false

theorem needsParens_eq_isOr_of_and (child : FilterExpression) :
    needsParens child "and" = child.isOrNode := by
  cases child <;> rfl

theorem needsParens_or_false (child : FilterExpression) :
    needsParens child "or" = false := by
  cases child <;> rfl

theorem isLeaf_not_or {e : FilterExpression} (h : e.isLeaf = true) :
    e.isOrNode = false := by
  cases e <;> simp [FilterExpression.isLeaf, FilterExpression.isOrNode] at h ⊢

/-- Helper: rendering an `and` node in terms of the child renders. -/
theorem filterToString_and (l r : FilterExpression) :
    filterToString (.and l r)
      = (if l.isOrNode then "(" ++ filterToString l ++ ")" else filterToString l)
        ++ "&"
        ++ (if r.isOrNode then "(" ++ filterToString r ++ ")" else filterToString r) := by
  rw [filterToString]
  rw [needsParens_eq_isOr_of_and, needsParens_eq_isOr_of_and]

/-- Helper: rendering an `or` node never wraps either child. -/
theorem filterToString_or (l r : FilterExpression) :
    filterToString (.or l r) = filterToString l ++ "|" ++ filterToString r := by
  rw [filterToString]
  rw [needsParens_or_false, needsParens_or_false]
  simp

/-- Helper: a left-nested `&` chain with non-`or` accumulator and leaf
operands renders as the `&`-join of the operand renders. -/
theorem foldl_and_render (xs : List FilterExpression) :
    ∀ acc : FilterExpression, acc.isOrNode = false →
      (∀ e ∈ xs, e.isLeaf = true) →
      filterToString (xs.foldl FilterExpression.and acc)
        = joinSep "&" (filterToString acc :: xs.map filterToString) := by
  induction xs with
  | nil => intro acc _ _; rfl
  | cons e xs ih =>
    intro acc hacc hxs
    have he : e.isLeaf = true := hxs e (by simp)
    have hrest : ∀ x ∈ xs, x.isLeaf = true := fun x hx => hxs x (by simp [hx])
    have step := ih (FilterExpression.and acc e) rfl hrest
    have hand : filterToString (FilterExpression.and acc e)
        = filterToString acc ++ "&" ++ filterToString e := by
      rw [filterToString_and, hacc, isLeaf_not_or he]
      simp
    calc filterToString ((e :: xs).foldl FilterExpression.and acc)
        = filterToString (xs.foldl FilterExpression.and (FilterExpression.and acc e)) := rfl
      _ = joinSep "&" (filterToString (FilterExpression.and acc e) :: xs.map filterToString) := step
      _ = joinSep "&" (filterToString acc :: filterToString e :: xs.map filterToString) := by
          rw [hand]
          cases xs <;> simp [joinSep, String.append_assoc]
      _ = joinSep "&" (filterToString acc :: (e :: xs).map filterToString) := rfl

/-- Helper: a left-nested `|` chain renders as the `|`-join of the operand
renders, unconditionally (an `or` parent never wraps a child). -/
theorem foldl_or_render (xs : List FilterExpression) :
    ∀ acc : FilterExpression,
      filterToString (xs.foldl FilterExpression.or acc)
        = joinSep "|" (filterToString acc :: xs.map filterToString) := by
  induction xs with
  | nil => intro acc; rfl
  | cons e xs ih =>
    intro acc
    have step := ih (FilterExpression.or acc e)
    calc filterToString ((e :: xs).foldl FilterExpression.or acc)
        = filterToString (xs.foldl FilterExpression.or (FilterExpression.or acc e)) := rfl
      _ = joinSep "|" (filterToString (FilterExpression.or acc e) :: xs.map filterToString) := step
      _ = joinSep "|" (filterToString acc :: filterToString e :: xs.map filterToString) := by
          rw [filterToString_or]
          cases xs <;> simp [joinSep, String.append_assoc]
      _ = joinSep "|" (filterToString acc :: (e :: xs).map filterToString) := rfl

/-- C1: `filterToString` wraps a child in parentheses exactly when the child
is an `or` node directly under an `and` node; an `and` child of an `or` node
is never wrapped; pure `.and()` chains and pure `.or()` chains render
left-to-right as plain joins without parentheses; and the two precedence
examples render as `a=1&(b=2|c=3)` and `a=1|b=2&c=3`. -/
theorem C1_precedence_parenthesization :
    (∀ l r : FilterExpression,
        filterToString (.and l r)
          = (if l.isOrNode then "(" ++ filterToString l ++ ")" else filterToString l)
            ++ "&"
            ++ (if r.isOrNode then "(" ++ filterToString r ++ ")" else filterToString r))
    ∧ (∀ l r : FilterExpression,
        filterToString (.or l r) = filterToString l ++ "|" ++ filterToString r)
    ∧ (∀ (x : FilterExpression) (xs : List FilterExpression),
        (∀ e ∈ x :: xs, e.isLeaf = true) →
        filterToString (xs.foldl FilterExpression.and x)
          = joinSep "&" ((x :: xs).map filterToString))
    ∧ (∀ (x : FilterExpression) (xs : List FilterExpression),
        filterToString (xs.foldl FilterExpression.or x)
          = joinSep "|" ((x :: xs).map filterToString))
    ∧ filterToString
        (.and (.comparison "a" .eq (.vNum 1))
          (.or (.comparison "b" .eq (.vNum 2)) (.comparison "c" .eq (.vNum 3))))
        = "a=1&(b=2|c=3)"
    ∧ filterToString
        (.or (.comparison "a" .eq (.vNum 1))
          (.and (.comparison "b" .eq (.vNum 2)) (.comparison "c" .eq (.vNum 3))))
        = "a=1|b=2&c=3" := by
  refine ⟨filterToString_and, filterToString_or, ?_, ?_, by decide, by decide⟩
  · intro x xs h
    have hx : x.isLeaf = true := h x (by simp)
    exact foldl_and_render xs x (isLeaf_not_or hx) (fun e he => h e (by simp [he]))
  · intro x xs
    exact foldl_or_render xs x

/-- Witness for C1 at a concrete three-element `.and()` chain. -/
theorem C1_precedence_parenthesization_witness :
    filterToString
        ([FilterExpression.comparison "b" .eq (.vNum 2),
          FilterExpression.comparison "c" .eq (.vNum 3)].foldl
          FilterExpression.and (FilterExpression.comparison "a" .eq (.vNum 1)))
      = joinSep "&"
          ([FilterExpression.comparison "a" .eq (.vNum 1),
            FilterExpression.comparison "b" .eq (.vNum 2),
            FilterExpression.comparison "c" .eq (.vNum 3)].map filterToString) :=
  C1_precedence_parenthesization.2.2.1
    (FilterExpression.comparison "a" .eq (.vNum 1))
    [FilterExpression.comparison "b" .eq (.vNum 2),
     FilterExpression.comparison "c" .eq (.vNum 3)]
    (by decide)

/-- C3 counter-evidence: the `FieldFilter` class of `FilterBuilder.ts`
provides no `endswith`, `in` or `notin` method, and the `StringOperator`
union of `types.ts` has no `endswith` member (nor does any array-operator
node exist in `FilterExpression`), contradicting the claim, the repo's own
tests (`FilterBuilder.test.ts`, lines 74-116) and its README. -/
theorem C3_missing_operators :
    fieldFilterMethods.contains "endswith" = false
    ∧ fieldFilterMethods.contains "in" = false
    ∧ fieldFilterMethods.contains "notin" = false
    ∧ (∀ op : StringOperator, stringOperatorName op ≠ "endswith")
    ∧ (∀ e : FilterExpression, e.typeName ≠ "array_op") := by
  refine ⟨by decide, by decide, by decide, ?_, ?_⟩
  · intro op; cases op <;> decide
  · intro e; cases e <;> simp [FilterExpression.typeName]

/-! ## Query compiler (`src/builder/QueryBuilder.ts`) -/

/-- `SortDirection` from `types.ts`: `'asc' | 'desc'`. -/
inductive SortDirection where
  | asc | desc
deriving DecidableEq, Repr

/-- `SortSpec` from `types.ts`. -/
structure SortSpec where
  field : String
  direction : SortDirection
deriving DecidableEq, Repr

/-- The private state of a `QueryBuilder` instance (`QueryBuilder.ts`,
lines 35-40).  The source stores a `FilterExpressionBuilder`; only its
`node` matters for rendering, so the state holds the node. -/
structure QueryBuilder where
  selectFields : List String
  sortSpecs : List SortSpec
  limitValue : Option Int
  countMode : Bool
  filterExpression : Option FilterExpression
deriving DecidableEq, Repr

/-- A freshly constructed `QueryBuilder`. -/
def QueryBuilder.empty : QueryBuilder :=
  { selectFields := [], sortSpecs := [], limitValue := none,
    countMode := false, filterExpression := none }

/-- `select(...fields)`: appends, never replaces. -/
def QueryBuilder.select (b : QueryBuilder) (fields : List String) : QueryBuilder :=
  { b with selectFields := b.selectFields ++ fields }

/-- `sort(field)`: appends an ascending spec. -/
def QueryBuilder.sort (b : QueryBuilder) (field : String) : QueryBuilder :=
  { b with sortSpecs := b.sortSpecs ++ [{ field := field, direction := .asc }] }

/-- `sortDesc(field)`: appends a descending spec. -/
def QueryBuilder.sortDesc (b : QueryBuilder) (field : String) : QueryBuilder :=
  { b with sortSpecs := b.sortSpecs ++ [{ field := field, direction := .desc }] }

/-- `limit(n)`: last write wins. -/
def QueryBuilder.limit (b : QueryBuilder) (n : Int) : QueryBuilder :=
  { b with limitValue := some n }

/-- `count()`: sets the flag. -/
def QueryBuilder.count (b : QueryBuilder) : QueryBuilder :=
  { b with countMode := true }

/-- `filter(cb)` (`QueryBuilder.ts`, lines 122-134): the callback's
resulting expression node AND-combines with any existing filter. -/
def QueryBuilder.filter (b : QueryBuilder) (expr : FilterExpression) : QueryBuilder :=
  { b with filterExpression :=
      match b.filterExpression with
      | some prev => some (prev.and expr)
      | none => some expr }

/-- Render a sort spec: descending is a leading `-` on the field. -/
def sortFieldString (s : SortSpec) : String :=
  match s.direction with
  | .desc => "-" ++ s.field
  | .asc => s.field

/-- The `parts` array accumulated by `toQueryString` (`QueryBuilder.ts`,
lines 146-174): present clauses in the fixed source order
select, filter, sort, limit, count. -/
def queryParts (selectFields : List String) (filterExpression : Option FilterExpression)
    (sortSpecs : List SortSpec) (limitValue : Option Int) (countMode : Bool) : List String :=
  (match selectFields with
   | [] => []
   | _ => ["select(" ++ joinSep "," selectFields ++ ")"])
  ++ (match filterExpression with
      | none => []
      | some e => [filterToString e])
  ++ (match sortSpecs with
      | [] => []
      | _ => ["sort(" ++ joinSep "," (sortSpecs.map sortFieldString) ++ ")"])
  ++ (match limitValue with
      | none => []
      | some n => ["limit(" ++ toString n ++ ")"])
  ++ (if countMode then ["count()"] else [])

/-- The body of `toQueryString` (`QueryBuilder.ts`, lines 145-183),
factored over the five state fields so that the reference-based model of
`clone()` can reuse it verbatim: empty string when no clause is present,
otherwise `?` followed by the `&`-join of the clauses. -/
def renderQuery (selectFields : List String) (filterExpression : Option FilterExpression)
    (sortSpecs : List SortSpec) (limitValue : Option Int) (countMode : Bool) : String :=
  match queryParts selectFields filterExpression sortSpecs limitValue countMode with
  | [] => ""
  | parts => "?" ++ joinSep "&" parts

/-- `toQueryString()` on a builder state. -/
def QueryBuilder.toQueryString (b : QueryBuilder) : String :=
  renderQuery b.selectFields b.filterExpression b.sortSpecs b.limitValue b.countMode

/-- One observable directive applied to a builder.  `filter` carries the
expression node returned by the user callback; `select` carries the
variadic field list. -/
inductive Directive where
  | select (fields : List String)
  | filter (expr : FilterExpression)
  | sort (field : String)
  | sortDesc (field : String)
  | limit (n : Int)
  | count
deriving DecidableEq, Repr

/-- Apply one directive to a builder state. -/
def applyDirective (b : QueryBuilder) : Directive → QueryBuilder
  | .select fields => b.select fields
  | .filter expr => b.filter expr
  | .sort field => b.sort field
  | .sortDesc field => b.sortDesc field
  | .limit n => b.limit n
  | .count => b.count

/-- Apply a directive sequence to the fresh builder. -/
def applyDirectives (ds : List Directive) : QueryBuilder :=
  ds.foldl applyDirective QueryBuilder.empty

/-- All `select` fields of a directive sequence, in application order. -/
def selectsOf : List Directive → List String
  | [] => []
  | .select fields :: ds => fields ++ selectsOf ds
  | _ :: ds => selectsOf ds

/-- All sort specs of a directive sequence, in application order. -/
def sortsOf : List Directive → List SortSpec
  | [] => []
  | .sort field :: ds => { field := field, direction := .asc } :: sortsOf ds
  | .sortDesc field :: ds => { field := field, direction := .desc } :: sortsOf ds
  | _ :: ds => sortsOf ds

/-- The AND-combined filter of a directive sequence, starting from `cur`. -/
def combinedFilterOf (cur : Option FilterExpression) : List Directive → Option FilterExpression
  | [] => cur
  | .filter expr :: ds =>
    combinedFilterOf (some (match cur with
      | some prev => prev.and expr
      | none => expr)) ds
  | _ :: ds => combinedFilterOf cur ds

/-- The last `limit` of a directive sequence, starting from `cur`. -/
def lastLimitOf (cur : Option Int) : List Directive → Option Int
  | [] => cur
  | .limit n :: ds => lastLimitOf (some n) ds
  | _ :: ds => lastLimitOf cur ds

/-- Whether any `count` directive occurs, starting from `cur`. -/
def anyCountOf (cur : Bool) : List Directive → Bool
  | [] => cur
  | .count :: ds => anyCountOf true ds
  | _ :: ds => anyCountOf cur ds

/-- Invariant: the builder state after a fold is determined field-by-field
by the directive sequence, independent of interleaving across kinds. -/
theorem applyDirectives_state (ds : List Directive) :
    ∀ b : QueryBuilder,
      ds.foldl applyDirective b
        = { selectFields := b.selectFields ++ selectsOf ds,
            sortSpecs := b.sortSpecs ++ sortsOf ds,
            limitValue := lastLimitOf b.limitValue ds,
            countMode := anyCountOf b.countMode ds,
            filterExpression := combinedFilterOf b.filterExpression ds } := by
  induction ds with
  | nil => intro b; simp [selectsOf, sortsOf, lastLimitOf, anyCountOf, combinedFilterOf]
  | cons d ds ih =>
    intro b
    cases d with
    | select fields =>
      rw [List.foldl_cons, ih]
      simp [applyDirective, QueryBuilder.select, selectsOf, sortsOf, lastLimitOf,
        anyCountOf, combinedFilterOf]
    | filter expr =>
      rw [List.foldl_cons, ih]
      simp only [applyDirective, QueryBuilder.filter, selectsOf, sortsOf, lastLimitOf,
        anyCountOf, combinedFilterOf]
      cases b.filterExpression <;> simp
    | sort field =>
      rw [List.foldl_cons, ih]
      simp [applyDirective, QueryBuilder.sort, selectsOf, sortsOf, lastLimitOf,
        anyCountOf, combinedFilterOf]
    | sortDesc field =>
      rw [List.foldl_cons, ih]
      simp [applyDirective, QueryBuilder.sortDesc, selectsOf, sortsOf, lastLimitOf,
        anyCountOf, combinedFilterOf]
    | limit n =>
      rw [List.foldl_cons, ih]
      simp [applyDirective, QueryBuilder.limit, selectsOf, sortsOf, lastLimitOf,
        anyCountOf, combinedFilterOf]
    | count =>
      rw [List.foldl_cons, ih]
      simp [applyDirective, QueryBuilder.count, selectsOf, sortsOf, lastLimitOf,
        anyCountOf, combinedFilterOf]

/-- The clause list a directive sequence must produce: present clauses in
the fixed order select, filter, sort, limit, count, each clause determined
by the directives of its own kind alone. -/
def clausesOf (ds : List Directive) : List String :=
  queryParts (selectsOf ds) (combinedFilterOf none ds) (sortsOf ds)
    (lastLimitOf none ds) (anyCountOf false ds)

/-- C2: whatever the order in which select/filter/sort/sortDesc/limit/count
directives are applied, `toQueryString` renders the empty string when no
clause is present and otherwise `?` followed by the present clauses joined
by `&` in the fixed order select, filter, sort, limit, count (each clause
determined by the directives of its own kind alone, independent of the
interleaving). -/
theorem C2_clause_order (ds : List Directive) :
    (applyDirectives ds).toQueryString
      = match clausesOf ds with
        | [] => ""
        | parts => "?" ++ joinSep "&" parts := by
  have hstate := applyDirectives_state ds QueryBuilder.empty
  unfold applyDirectives at *
  rw [hstate]
  unfold QueryBuilder.toQueryString renderQuery clausesOf
  simp [QueryBuilder.empty]

/-! ## `clone()` independence (`QueryBuilder.ts`, lines 188-196)

JavaScript `QueryBuilder` instances mutate two heap-allocated arrays
(`selectFields`, `sortSpecs`) in place, while the scalar fields and the
filter-tree pointer live in the builder object itself.  `clone()` copies
the arrays (`[...this.selectFields]`, `[...this.sortSpecs]`), copies the
scalars, and shares the filter tree by reference.  To state independence
faithfully we model the heap explicitly: a store of string arrays and of
sort-spec arrays, with builders holding indices into it.  Filter trees are
modelled as pure values because no operation in the source ever mutates a
node (`and`/`or` in `FilterBuilder.ts` allocate new nodes). -/

/-- The mutable-array heap: each builder's `selectFields` and `sortSpecs`
arrays live at an index. -/
structure Store where
  strArrays : List (List String)
  sortArrays : List (List SortSpec)
deriving DecidableEq, Repr

/-- A builder object: references to its two arrays plus its own scalar
fields and (shared, immutable) filter-tree pointer. -/
structure QBRef where
  selectRef : Nat
  sortRef : Nat
  limitValue : Option Int
  countMode : Bool
  filterExpression : Option FilterExpression
deriving DecidableEq, Repr

/-- Read a string array from the store. -/
def Store.getStr (s : Store) (i : Nat) : List String := s.strArrays.getD i []

/-- Read a sort-spec array from the store. -/
def Store.getSort (s : Store) (i : Nat) : List SortSpec := s.sortArrays.getD i []

/-- Overwrite a string array in the store. -/
def Store.setStr (s : Store) (i : Nat) (v : List String) : Store :=
  { s with strArrays := s.strArrays.set i v }

/-- Overwrite a sort-spec array in the store. -/
def Store.setSort (s : Store) (i : Nat) (v : List SortSpec) : Store :=
  { s with sortArrays := s.sortArrays.set i v }

/-- Apply one directive to a builder object, mutating the store:
`select`/`sort`/`sortDesc` push onto the referenced arrays in place;
`limit`/`count`/`filter` update the object's own fields. -/
def hApply (p : Store × QBRef) : Directive → Store × QBRef
  | .select fields =>
    (p.1.setStr p.2.selectRef (p.1.getStr p.2.selectRef ++ fields), p.2)
  | .sort field =>
    (p.1.setSort p.2.sortRef (p.1.getSort p.2.sortRef ++ [{ field := field, direction := .asc }]), p.2)
  | .sortDesc field =>
    (p.1.setSort p.2.sortRef (p.1.getSort p.2.sortRef ++ [{ field := field, direction := .desc }]), p.2)
  | .limit n => (p.1, { p.2 with limitValue := some n })
  | .count => (p.1, { p.2 with countMode := true })
  | .filter expr =>
    (p.1, { p.2 with filterExpression :=
      match p.2.filterExpression with
      | some prev => some (prev.and expr)
      | none => some expr })

/-- `clone()` (`QueryBuilder.ts`, lines 188-196): allocates fresh copies of
the two arrays at the end of the store, copies the scalar fields, and
shares `filterExpression` by reference. -/
def hClone (s : Store) (b : QBRef) : Store × QBRef :=
  ({ strArrays := s.strArrays ++ [s.getStr b.selectRef],
     sortArrays := s.sortArrays ++ [s.getSort b.sortRef] },
   { selectRef := s.strArrays.length,
     sortRef := s.sortArrays.length,
     limitValue := b.limitValue,
     countMode := b.countMode,
     filterExpression := b.filterExpression })

/-- `toQueryString()` of a builder object, reading its arrays from the
store. -/
def hToQueryString (s : Store) (b : QBRef) : String :=
  renderQuery (s.getStr b.selectRef) b.filterExpression (s.getSort b.sortRef)
    b.limitValue b.countMode

theorem getD_set_ne {α : Type} (v d : α) (l : List α) :
    ∀ i j : Nat, i ≠ j → (l.set i v).getD j d = l.getD j d := by
  induction l with
  | nil => intro i j _; simp [List.set]
  | cons a l ih =>
    intro i j hij
    cases i with
    | zero =>
      cases j with
      | zero => exact absurd rfl hij
      | succ j => simp [List.set, List.getD]
    | succ i =>
      cases j with
      | zero => simp [List.set, List.getD]
      | succ j =>
        simp only [List.set, List.getD_cons_succ]
        exact ih i j (fun h => hij (by rw [h]))

theorem getD_append_left {α : Type} (d : α) (l l' : List α) :
    ∀ j : Nat, j < l.length → (l ++ l').getD j d = l.getD j d := by
  induction l with
  | nil => intro j h; simp at h
  | cons a l ih =>
    intro j h
    cases j with
    | zero => simp [List.getD]
    | succ j =>
      simp only [List.cons_append, List.getD_cons_succ]
      exact ih j (by simpa using h)

/-- Frame property of the directive fold: the builder's array references
never change, and no array other than the two referenced ones is ever
written. -/
theorem hApply_fold_frame (ds : List Directive) :
    ∀ (s : Store) (b : QBRef),
      (ds.foldl hApply (s, b)).2.selectRef = b.selectRef
      ∧ (ds.foldl hApply (s, b)).2.sortRef = b.sortRef
      ∧ (∀ j, j ≠ b.selectRef →
          (ds.foldl hApply (s, b)).1.strArrays.getD j [] = s.strArrays.getD j [])
      ∧ (∀ j, j ≠ b.sortRef →
          (ds.foldl hApply (s, b)).1.sortArrays.getD j [] = s.sortArrays.getD j []) := by
  induction ds with
  | nil => intro s b; exact ⟨rfl, rfl, fun _ _ => rfl, fun _ _ => rfl⟩
  | cons d ds ih =>
    intro s b
    cases d with
    | select fields =>
      simp only [List.foldl_cons, hApply]
      have h := ih (s.setStr b.selectRef (s.getStr b.selectRef ++ fields)) b
      refine ⟨h.1, h.2.1, ?_, ?_⟩
      · intro j hj
        rw [h.2.2.1 j hj]
        exact getD_set_ne _ _ _ _ _ (fun he => hj he.symm)
      · intro j hj
        exact h.2.2.2 j hj
    | sort field =>
      simp only [List.foldl_cons, hApply]
      have h := ih (s.setSort b.sortRef (s.getSort b.sortRef ++ [{ field := field, direction := .asc }])) b
      refine ⟨h.1, h.2.1, ?_, ?_⟩
      · intro j hj
        exact h.2.2.1 j hj
      · intro j hj
        rw [h.2.2.2 j hj]
        exact getD_set_ne _ _ _ _ _ (fun he => hj he.symm)
    | sortDesc field =>
      simp only [List.foldl_cons, hApply]
      have h := ih (s.setSort b.sortRef (s.getSort b.sortRef ++ [{ field := field, direction := .desc }])) b
      refine ⟨h.1, h.2.1, ?_, ?_⟩
      · intro j hj
        exact h.2.2.1 j hj
      · intro j hj
        rw [h.2.2.2 j hj]
        exact getD_set_ne _ _ _ _ _ (fun he => hj he.symm)
    | limit n =>
      simp only [List.foldl_cons, hApply]
      exact ih s _
    | count =>
      simp only [List.foldl_cons, hApply]
      exact ih s _
    | filter expr =>
      simp only [List.foldl_cons, hApply]
      exact ih s _

/-- C9: applying any directive sequence to a `clone()` leaves the source
builder's `toQueryString()` output unchanged — the clone's copied arrays
live at fresh references, its scalar fields are its own, and the shared
filter tree is never mutated. -/
theorem C9_clone_independent (s : Store) (b : QBRef) (ds : List Directive)
    (hsel : b.selectRef < s.strArrays.length)
    (hsort : b.sortRef < s.sortArrays.length) :
    hToQueryString (ds.foldl hApply (hClone s b)).1 b = hToQueryString s b := by
  have hframe := hApply_fold_frame ds (hClone s b).1 (hClone s b).2
  have hselne : b.selectRef ≠ (hClone s b).2.selectRef := by
    simp only [hClone]
    omega
  have hsortne : b.sortRef ≠ (hClone s b).2.sortRef := by
    simp only [hClone]
    omega
  have h1 : (ds.foldl hApply (hClone s b)).1.strArrays.getD b.selectRef []
      = s.strArrays.getD b.selectRef [] := by
    rw [hframe.2.2.1 b.selectRef (fun h => hselne h)]
    exact getD_append_left _ _ _ _ hsel
  have h2 : (ds.foldl hApply (hClone s b)).1.sortArrays.getD b.sortRef []
      = s.sortArrays.getD b.sortRef [] := by
    rw [hframe.2.2.2 b.sortRef (fun h => hsortne h)]
    exact getD_append_left _ _ _ _ hsort
  unfold hToQueryString Store.getStr Store.getSort
  rw [h1, h2]

/-- Concrete store for the C9 witness: one builder with one select array
holding `id` and one empty sort array. -/
def c9Store : Store := { strArrays := [["id"]], sortArrays := [[]] }

/-- Concrete source builder for the C9 witness. -/
def c9Builder : QBRef :=
  { selectRef := 0, sortRef := 0, limitValue := none, countMode := false,
    filterExpression := some (.comparison "a" .eq (.vNum 1)) }

/-- Concrete directive sequence mutating the clone in the C9 witness. -/
def c9Directives : List Directive :=
  [.select ["name"], .sortDesc "date", .limit 10, .count,
   .filter (.comparison "b" .eq (.vNum 2))]

/-- Witness for C9 at a concrete store, builder and directive sequence. -/
theorem C9_clone_independent_witness :
    hToQueryString (c9Directives.foldl hApply (hClone c9Store c9Builder)).1 c9Builder
      = hToQueryString c9Store c9Builder :=
  C9_clone_independent c9Store c9Builder c9Directives (by decide) (by decide)

/-! ## Token cache (`src/client/auth.ts`) -/

/-- `EXPIRY_BUFFER_MS` (`auth.ts`, line 9): five minutes. -/
def EXPIRY_BUFFER_MS : Int := 5 * 60 * 1000

/-- `CachedToken`: access token plus absolute expiry in ms. -/
structure CachedToken where
  accessToken : String
  expiresAt : Int
deriving DecidableEq, Repr

/-- `TokenCache.isValid` (`auth.ts`, lines 43-49) at a given `Date.now()`:
false with no cached token, else `now < expiresAt - EXPIRY_BUFFER_MS`. -/
def tokenIsValid (cachedToken : Option CachedToken) (now : Int) : Bool :=
  match cachedToken with
  | none => false
  | some t => decide (now < t.expiresAt - EXPIRY_BUFFER_MS)

/-- The cache entry written by a successful `refresh()` (`auth.ts`, lines
105-108): `expiresAt = Date.now() + expires_in * 1000`. -/
def refreshedToken (accessToken : String) (now expiresIn : Int) : CachedToken :=
  { accessToken := accessToken, expiresAt := now + expiresIn * 1000 }

/-- `getToken()` (`auth.ts`, lines 54-57) calls `refresh()` exactly when
`isValid()` is false. -/
def getTokenRefreshes (cachedToken : Option CachedToken) (now : Int) : Bool :=
  !(tokenIsValid cachedToken now)

/-- C5: a token fetched at time `T` with `expires_in = E` seconds is
invalid (and `getToken()` refreshes) at `T + E*1000 - 300000` ms and every
later instant, and still valid one millisecond earlier. -/
theorem C5_token_expiry (tok : String) (T E now : Int) :
    (now ≥ T + E * 1000 - 300000 →
      tokenIsValid (some (refreshedToken tok T E)) now = false
      ∧ getTokenRefreshes (some (refreshedToken tok T E)) now = true)
    ∧ tokenIsValid (some (refreshedToken tok T E)) (T + E * 1000 - 300001) = true := by
  constructor
  · intro h
    constructor <;>
      · simp [tokenIsValid, refreshedToken, getTokenRefreshes, EXPIRY_BUFFER_MS]
        omega
  · simp [tokenIsValid, refreshedToken, EXPIRY_BUFFER_MS]

/-- Witness for C5: a token fetched at `T = 0` with `E = 3600` is invalid
at 3,300,000 ms. -/
theorem C5_token_expiry_witness :
    tokenIsValid (some (refreshedToken "t" 0 3600)) 3300000 = false
    ∧ getTokenRefreshes (some (refreshedToken "t" 0 3600)) 3300000 = true :=
  (C5_token_expiry "t" 0 3600 3300000).1 (by decide)

/-! ## Streaming pagination (`SpintaClient.stream`, lines 187-214)

A page response: `rdata` models the `_data` array, `next` models
`_page?.next` (absent when the listing is exhausted).  The HTTP service is
modelled as a script: the list of responses the consecutive requests
receive.  Each loop iteration of `stream()` performs
`await this.request(...)`, which first calls `getHeaders()` — the token
validity check — and then fetches; the model records both as events. -/
structure SpintaResponse (α : Type) where
  rdata : List α
  next : Option String
deriving DecidableEq, Repr

/-- Observable effects of the stream loop. -/
inductive StreamEvent where
  | tokenCheck
  | pageFetch (query : String)
deriving DecidableEq, Repr

/-- The query string built at each page boundary (`SpintaClient.ts`, lines
196-201): the base query, then — only when a cursor is present —
`page("token")` joined with `&` when a base query exists, else `?`. -/
def pageQuery (baseQuery : String) (pageToken : Option String) : String :=
  match pageToken with
  | none => baseQuery
  | some t =>
    let separator := if baseQuery ≠ "" then "&" else "?"
    baseQuery ++ separator ++ "page(" ++ dq ++ t ++ dq ++ ")"

/-- The two events of one `request()` call: token check, then fetch. -/
def pageEvents (q : String) : List StreamEvent :=
  [StreamEvent.tokenCheck, StreamEvent.pageFetch q]

/-- The do/while loop of `stream()` run against a response script: returns
the yielded items and the event log, or `none` when the script is
exhausted while a cursor still demands another page. -/
def streamRun {α : Type} (baseQuery : String) :
    Option String → List (SpintaResponse α) → Option (List α × List StreamEvent)
  | _, [] => none
  | pageToken, r :: rest =>
    let queryString := pageQuery baseQuery pageToken
    match r.next with
    | none => some (r.rdata, pageEvents queryString)
    | some t =>
      match streamRun baseQuery (some t) rest with
      | none => none
      | some p => some (r.rdata ++ p.1, pageEvents queryString ++ p.2)

/-- The query strings the loop issues: the first from the incoming token,
each later one from the previous response's cursor. -/
def cursorQueries {α : Type} (baseQuery : String) :
    Option String → List (SpintaResponse α) → List String
  | _, [] => []
  | t, r :: rest => pageQuery baseQuery t :: cursorQueries baseQuery r.next rest

/-- Number of token-validity checks in an event log. -/
def countTokenChecks : List StreamEvent → Nat
  | [] => 0
  | .tokenCheck :: es => countTokenChecks es + 1
  | _ :: es => countTokenChecks es

/-- Number of page fetches in an event log. -/
def countPageFetches : List StreamEvent → Nat
  | [] => 0
  | .pageFetch _ :: es => countPageFetches es + 1
  | _ :: es => countPageFetches es

theorem streamRun_completes {α : Type} (baseQuery : String)
    (rs : List (SpintaResponse α)) :
    ∀ (last : SpintaResponse α) (extra : List (SpintaResponse α)) (t : Option String),
      (∀ r ∈ rs, r.next.isSome = true) → last.next = none →
      streamRun baseQuery t (rs ++ last :: extra)
        = some (((rs ++ [last]).map SpintaResponse.rdata).flatten,
                (cursorQueries baseQuery t (rs ++ [last])).flatMap pageEvents) := by
  induction rs with
  | nil =>
    intro last extra t _ hlast
    simp [streamRun, hlast, cursorQueries]
  | cons r rs ih =>
    intro last extra t hcur hlast
    obtain ⟨tok, htok⟩ := Option.isSome_iff_exists.mp (hcur r (by simp))
    have hrest : ∀ x ∈ rs, x.next.isSome = true := fun x hx => hcur x (by simp [hx])
    have step := ih last extra (some tok) hrest hlast
    simp only [List.cons_append, streamRun, htok, cursorQueries, List.append_eq]
    rw [step]
    simp

theorem streamRun_needs_more {α : Type} (baseQuery : String)
    (responses : List (SpintaResponse α)) :
    ∀ t : Option String, (∀ r ∈ responses, r.next.isSome = true) →
      streamRun baseQuery t responses = none := by
  induction responses with
  | nil => intro t _; rfl
  | cons r rs ih =>
    intro t hcur
    obtain ⟨tok, htok⟩ := Option.isSome_iff_exists.mp (hcur r (by simp))
    have step := ih (some tok) (fun x hx => hcur x (by simp [hx]))
    simp [streamRun, htok, step]

theorem counts_of_pageEvents (qs : List String) :
    countTokenChecks (qs.flatMap pageEvents) = qs.length
    ∧ countPageFetches (qs.flatMap pageEvents) = qs.length := by
  induction qs with
  | nil => exact ⟨rfl, rfl⟩
  | cons q qs ih =>
    simp only [List.flatMap_cons, pageEvents]
    exact ⟨by simp [countTokenChecks, ih.1], by simp [countTokenChecks, countPageFetches, ih.2]⟩

/-- C6: `stream()` yields the items of each page in order; the first
request uses the base query and each later request appends the previous
page's cursor as `page("token")` joined with `&` when a base query exists,
else `?`; the loop terminates exactly on the first response without a
cursor (a script of all-cursor responses needs more pages); and every page
fetch is preceded by its own token-validity check. -/
theorem C6_stream_pagination {α : Type} (baseQuery : String) :
    (∀ (rs : List (SpintaResponse α)) (last : SpintaResponse α)
        (extra : List (SpintaResponse α)),
      (∀ r ∈ rs, r.next.isSome = true) → last.next = none →
      streamRun baseQuery none (rs ++ last :: extra)
        = some (((rs ++ [last]).map SpintaResponse.rdata).flatten,
                (cursorQueries baseQuery none (rs ++ [last])).flatMap pageEvents))
    ∧ (∀ responses : List (SpintaResponse α), (∀ r ∈ responses, r.next.isSome = true) →
        ∀ t : Option String, streamRun baseQuery t responses = none)
    ∧ (∀ qs : List String,
        countTokenChecks (qs.flatMap pageEvents) = qs.length
        ∧ countPageFetches (qs.flatMap pageEvents) = qs.length)
    ∧ pageQuery baseQuery none = baseQuery
    ∧ (∀ t : String,
        pageQuery baseQuery (some t)
          = baseQuery ++ (if baseQuery ≠ "" then "&" else "?")
            ++ "page(" ++ dq ++ t ++ dq ++ ")") :=
  ⟨fun rs last extra h1 h2 => streamRun_completes baseQuery rs last extra none h1 h2,
   fun responses h t => streamRun_needs_more baseQuery responses t h,
   counts_of_pageEvents,
   rfl,
   fun _ => rfl⟩

/-- First page of the C6 witness script. -/
def c6page1 : SpintaResponse String := { rdata := ["x1"], next := some "t1" }

/-- Final page of the C6 witness script. -/
def c6page2 : SpintaResponse String := { rdata := ["x2"], next := none }

/-- Witness for C6 on a concrete two-page script. -/
theorem C6_stream_pagination_witness :
    streamRun "?limit(2)" none ([c6page1] ++ c6page2 :: [])
      = some ((([c6page1] ++ [c6page2]).map SpintaResponse.rdata).flatten,
              (cursorQueries "?limit(2)" none ([c6page1] ++ [c6page2])).flatMap pageEvents) :=
  (C6_stream_pagination "?limit(2)").1 [c6page1] c6page2 [] (by decide) (by decide)

/-! ## Change-log access (`SpintaClient.ts`, lines 357-387) -/

/-- The failure classes a `request()` can raise (`client/errors.ts` maps
400/401/403/404/429/other status codes and network or JSON-parse failures
to thrown errors; `getLatestChange` distinguishes none of them). -/
inductive RequestFailure where
  | notFound
  | authentication
  | rateLimited
  | network
  | malformedResponse
deriving DecidableEq, Repr

/-- A `ChangeEntry`: `cid` models `_cid`, `created` models `_created`. -/
structure ChangeEntry where
  cid : Int
  created : String
deriving DecidableEq, Repr

/-- `getLatestChange` (`SpintaClient.ts`, lines 357-367): the whole request
for the `:changes` endpoint at negative index 1 sits in a `try` block whose
`catch` returns `null`; on success it returns `response._data[0] ?? null`. -/
def getLatestChange (outcome : Except RequestFailure (List ChangeEntry)) :
    Option ChangeEntry :=
  match outcome with
  | .error _ => none
  | .ok entries => entries.head?

/-- `getLastUpdatedAt` (`SpintaClient.ts`, lines 384-387):
`latest ? new Date(latest._created) : null`, the date modelled by its
source string. -/
def getLastUpdatedAt (outcome : Except RequestFailure (List ChangeEntry)) :
    Option String :=
  match getLatestChange outcome with
  | some latest => some latest.created
  | none => none

/-- C10: `getLatestChange` never propagates a failure — every failure
class yields `null`, the same result as an empty change log — and
`getLastUpdatedAt` is then `null` as well. -/
theorem C10_getLatestChange_swallows (e : RequestFailure) :
    getLatestChange (.error e) = none
    ∧ getLatestChange (.error e) = getLatestChange (.ok [])
    ∧ getLastUpdatedAt (.error e) = none
    ∧ getLastUpdatedAt (.ok []) = none :=
  ⟨rfl, rfl, rfl, rfl⟩

/-! ## Schema inference (`src/cli/crawler.ts`)

`inferType` (lines 69-123) classifies one JavaScript value; the modelled
`JsonValue` carries exactly the observations the function branches on.
String classification transcribes the source regexes character by
character (for `\s` the ASCII whitespace characters are modelled; the
additional Unicode spaces JS `\s` accepts are irrelevant to the tags).
`jint`/`jfloat` split JS numbers by `Number.isInteger`; `jobj`'s flags are
`'_content_type' in value || '_size' in value` and
`'_id' in value && typeof value._id === 'string'`. -/
inductive JsonValue where
  | jnull
  | jstr (s : String)
  | jint (n : Int)
  | jfloat
  | jbool (b : Bool)
  | jarr
  | jobj (hasFileMarker : Bool) (hasStringId : Bool)
deriving DecidableEq, Repr

/-- Whether the character list `s` starts with the pattern `p`. -/
def charsStartWith : List Char → List Char → Bool
  | _, [] => true
  | [], _ :: _ => false
  | c :: cs, p :: ps => c = p && charsStartWith cs ps

/-- ASCII members of the regex class `\s`. -/
def isRegexSpace (c : Char) : Bool :=
  c = ' ' || c = Char.ofNat 9 || c = Char.ofNat 10 || c = Char.ofNat 13
    || c = Char.ofNat 11 || c = Char.ofNat 12

/-- Lower-cased characters of a string (the `/i` flag). -/
def lowerChars (s : String) : List Char := s.data.map Char.toLower

/-- `/^(POINT|LINESTRING|POLYGON|MULTIPOINT|MULTILINESTRING|MULTIPOLYGON|GEOMETRYCOLLECTION)\s*\(/i` -/
def matchesWkt (s : String) : Bool :=
  ["point", "linestring", "polygon", "multipoint", "multilinestring",
   "multipolygon", "geometrycollection"].any fun kw =>
    let lc := lowerChars s
    charsStartWith lc kw.data &&
      (match (lc.drop kw.length).dropWhile isRegexSpace with
       | c :: _ => c = '('
       | [] => false)

/-- `/^SRID=\d+;/i` -/
def matchesSrid (s : String) : Bool :=
  let lc := lowerChars s
  charsStartWith lc "srid=".data &&
    (let rest := lc.drop 5
     let digits := rest.takeWhile Char.isDigit
     decide (digits.length > 0) &&
       (match rest.drop digits.length with
        | c :: _ => c = ';'
        | [] => false))

/-- `/^\d{4}-\d{2}-\d{2}/` -/
def isoDatePrefix (s : String) : Bool :=
  match s.data with
  | y1 :: y2 :: y3 :: y4 :: h1 :: m1 :: m2 :: h2 :: d1 :: d2 :: _ =>
    y1.isDigit && y2.isDigit && y3.isDigit && y4.isDigit && h1 = '-'
      && m1.isDigit && m2.isDigit && h2 = '-' && d1.isDigit && d2.isDigit
  | _ => false

/-- Case-insensitive hexadecimal digit. -/
def isHexChar (c : Char) : Bool :=
  c.isDigit || (let l := c.toLower; 'a' ≤ l && l ≤ 'f')

/-- `/^[0-9a-f]{8}-[0-9a-f]{4}-[0-9a-f]{4}-[0-9a-f]{4}-[0-9a-f]{12}$/i` -/
def matchesUuid (s : String) : Bool :=
  let cs := s.data
  decide (cs.length = 36) &&
    (List.range 36).all fun i =>
      if i = 8 || i = 13 || i = 18 || i = 23 then cs.getD i ' ' = '-'
      else isHexChar (cs.getD i ' ')

/-- `/^https?:\/\//i` -/
def matchesUrl (s : String) : Bool :=
  let lc := lowerChars s
  charsStartWith lc "http://".data || charsStartWith lc "https://".data

/-- The regex class `\w`. -/
def isWordChar (c : Char) : Bool := c.isAlpha || c.isDigit || c = '_'

/-- A `.`-anchored match of `\w{2,5}($|\?)` against `rest` with exactly
`k` word characters. -/
def extMatchAt (rest : List Char) (k : Nat) : Bool :=
  decide ((rest.take k).length = k) && (rest.take k).all isWordChar &&
    (match rest.drop k with
     | [] => true
     | c :: _ => c = '?')

/-- Scan for `/\.\w{2,5}($|\?)/i` anywhere in the character list. -/
def extScan : List Char → Bool
  | [] => false
  | c :: rest =>
    (c = '.' && ((List.range 4).any fun i => extMatchAt rest (i + 2))) || extScan rest

/-- `/\.\w{2,5}($|\?)/i` — the file-extension heuristic. -/
def hasFileExtension (s : String) : Bool := extScan s.data

/-- `inferType` (`crawler.ts`, lines 69-123), with the source's branch
order inside the string case: WKT, SRID-prefixed WKT, ISO date (datetime
when a `T` occurs), UUID → ref, URL (file when the extension heuristic
fires), else string; object values check file markers before `_id`. -/
def inferType : JsonValue → String
  | .jnull => "unknown"
  | .jstr v =>
    if matchesWkt v then "geometry"
    else if matchesSrid v then "geometry"
    else if isoDatePrefix v then (if v.data.contains 'T' then "datetime" else "date")
    else if matchesUuid v then "ref"
    else if matchesUrl v then (if hasFileExtension v then "file" else "url")
    else "string"
  | .jint _ => "integer"
  | .jfloat => "number"
  | .jbool _ => "boolean"
  | .jarr => "array"
  | .jobj hasFileMarker hasStringId =>
    if hasFileMarker then "file" else if hasStringId then "ref" else "object"

/-- One `Set.add`: JavaScript `Set` iterates in insertion order and adds
only elements not already present. -/
def addToTypeSet (acc : List String) (t : String) : List String :=
  if t ∈ acc then acc else acc ++ [t]

/-- The per-field `Set<string>` of observed tags (`crawler.ts`, lines
162-167), as its insertion-order element list. -/
def observedTypeSet (observed : List String) : List String :=
  observed.foldl addToTypeSet []

/-- The final-type resolution (`crawler.ts`, lines 171-194): drop
`unknown` whenever the set is non-empty; a single survivor wins
(`types.values().next().value ?? 'unknown'`); several survivors resolve
by the fixed priority chain; an emptied set stays `unknown`. -/
def resolveTypes (typeSet : List String) : String :=
  let types := if typeSet.length > 0 then typeSet.filter (fun t => t ≠ "unknown") else typeSet
  if types.length = 1 then types.headD "unknown"
  else if types.length > 1 then
    if types.contains "ref" then "ref"
    else if types.contains "string" then "string"
    else if types.contains "datetime" then "datetime"
    else if types.contains "date" then "date"
    else if types.contains "number" || types.contains "integer" then "number"
    else "string"
  else "unknown"

/-- The resolved type of a field from its sampled values. -/
def resolveField (values : List JsonValue) : String :=
  resolveTypes (observedTypeSet (values.map inferType))

/-- Modelled from the spec's resolution rule, for comparison with
`resolveTypes`: drop `unknown` when any concrete tag exists; a single
remaining tag wins outright; multiple remaining tags resolve by the fixed
priority `ref > string > datetime > date > (number or integer)`, else fall
back to `string`. -/
def resolveSpecSide (typeSet : List String) : String :=
  let remaining :=
    if typeSet.any (fun t => t ≠ "unknown")
    then typeSet.filter (fun t => t ≠ "unknown") else typeSet
  match remaining with
  | [] => "unknown"
  | [t] => t
  | _ :: _ :: _ =>
    if remaining.contains "ref" then "ref"
    else if remaining.contains "string" then "string"
    else if remaining.contains "datetime" then "datetime"
    else if remaining.contains "date" then "date"
    else if remaining.contains "number" || remaining.contains "integer" then "number"
    else "string"

theorem foldl_addToTypeSet_unknown (l : List String) :
    ∀ acc, (∀ x ∈ l, x = "unknown") → (acc = [] ∨ acc = ["unknown"]) →
      l.foldl addToTypeSet acc = [] ∨ l.foldl addToTypeSet acc = ["unknown"] := by
  induction l with
  | nil => intro acc _ h; simpa using h
  | cons x l ih =>
    intro acc hall hacc
    have hx : x = "unknown" := hall x (by simp)
    have step : addToTypeSet acc x = ["unknown"] := by
      subst hx
      rcases hacc with h | h <;> subst h <;> rfl
    rw [List.foldl_cons, step]
    exact ih ["unknown"] (fun y hy => hall y (by simp [hy])) (Or.inr rfl)

theorem mem_addToTypeSet {x : String} (acc : List String) (y : String)
    (h : x ∈ acc ∨ x = y) : x ∈ addToTypeSet acc y := by
  unfold addToTypeSet
  split
  next hc =>
    rcases h with h | h
    · exact h
    · subst h; exact hc
  next hc =>
    rcases h with h | h
    · exact List.mem_append_left _ h
    · subst h; exact List.mem_append_right _ (by simp)

theorem mem_observedTypeSet_aux {x : String} (l : List String) :
    ∀ acc, x ∈ l ∨ x ∈ acc → x ∈ l.foldl addToTypeSet acc := by
  induction l with
  | nil =>
    intro acc h
    rcases h with h | h
    · simp at h
    · simpa using h
  | cons y l ih =>
    intro acc h
    rw [List.foldl_cons]
    apply ih
    rcases h with h | h
    · rcases List.mem_cons.mp h with h | h
      · exact Or.inr (mem_addToTypeSet acc y (Or.inr h))
      · exact Or.inl h
    · exact Or.inr (mem_addToTypeSet acc y (Or.inl h))

theorem mem_observedTypeSet {x : String} (l : List String) (h : x ∈ l) :
    x ∈ observedTypeSet l :=
  mem_observedTypeSet_aux l [] (Or.inl h)

theorem resolveTypes_eq_spec (l : List String) :
    resolveTypes (observedTypeSet l) = resolveSpecSide (observedTypeSet l) := by
  by_cases hall : ∀ x ∈ l, x = "unknown"
  · rcases foldl_addToTypeSet_unknown l [] hall (Or.inl rfl) with h | h <;>
      · rw [show observedTypeSet l = List.foldl addToTypeSet [] l from rfl, h]
        decide
  · push_neg at hall
    obtain ⟨w, hwl, hwne⟩ := hall
    have hw : w ∈ observedTypeSet l := mem_observedTypeSet l hwl
    have hany : (observedTypeSet l).any (fun t => t ≠ "unknown") = true := by
      simp only [List.any_eq_true, decide_eq_true_eq]
      exact ⟨w, hw, hwne⟩
    have hlen : (observedTypeSet l).length > 0 := by
      cases hts : observedTypeSet l with
      | nil => rw [hts] at hw; simp at hw
      | cons a t => simp
    unfold resolveTypes resolveSpecSide
    rw [if_pos hlen, if_pos hany]
    cases hf : (observedTypeSet l).filter (fun t => t ≠ "unknown") with
    | nil => rfl
    | cons a rest =>
      cases rest with
      | nil => rfl
      | cons b rest' => simp

/-- C7: the resolution implemented in `crawler.ts` coincides with the
spec's rule (drop `unknown` when a concrete tag exists, single survivor
wins, priority `ref > string > datetime > date > (number or integer)`,
else `string`, only-`unknown` stays `unknown`), and the concrete examples
resolve as claimed: all-null → `unknown`, null then 100 → `integer`,
123 then "text" → `string`, null/"2024-01-01"/null → `date`. -/
theorem C7_type_resolution :
    (∀ values : List JsonValue,
      resolveField values = resolveSpecSide (observedTypeSet (values.map inferType)))
    ∧ resolveField [.jnull, .jnull] = "unknown"
    ∧ resolveField [.jnull, .jint 100] = "integer"
    ∧ resolveField [.jint 123, .jstr "text"] = "string"
    ∧ resolveField [.jnull, .jstr "2024-01-01", .jnull] = "date" :=
  ⟨fun values => resolveTypes_eq_spec (values.map inferType),
   by decide, by decide, by decide, by decide⟩

/-! ## Retrying stream (`streamWithRetry`)

`src/cli/commands/describe.ts` (lines 234-309) drives
`client.streamWithRetry(model, query, {pageSize, initialBackoffMs,
maxBackoffMs, maxAttempts, noRetry})`, but the method itself is absent
from the sources; only this caller and the constants
`INITIAL_BACKOFF_MS = 1000`, `MAX_BACKOFF_MS = 30000`,
`MAX_RATE_LIMIT_ATTEMPTS = 5`, `DEFAULT_PAGE_SIZE = 100` exist.  The
retry loop is therefore modelled from the spec. -/

/-- The options object `streamWithRetry` receives (`describe.ts`, lines
255-261). -/
structure RetryConfig where
  pageSize : Nat
  initialBackoffMs : Nat
  maxBackoffMs : Nat
  maxAttempts : Nat
  noRetry : Bool
deriving DecidableEq, Repr

/-- Modelled from the spec: the sleep before retry number `attempt`,
`min(initialBackoff × 2^(attempt−1), maxBackoff)`. -/
def backoffDelay (cfg : RetryConfig) (attempt : Nat) : Nat :=
  min (cfg.initialBackoffMs * 2 ^ (attempt - 1)) cfg.maxBackoffMs

/-- Outcome of one page request in the script driving the model. -/
inductive FetchOutcome (α : Type) where
  | ok (page : SpintaResponse α)
  | rateLimited
  | failed (msg : String)
deriving DecidableEq, Repr

/-- Result of a retrying stream run. -/
inductive RetryResult (α : Type) where
  | completed (items : List α) (sleeps : List Nat)
  | rateLimitError (deliveredCount : Nat) (items : List α) (sleeps : List Nat)
  | otherError (msg : String) (deliveredCount : Nat) (items : List α) (sleeps : List Nat)
  | scriptExhausted
deriving DecidableEq, Repr

/-- Modelled from the spec: the retry loop of the absent
`SpintaClient.streamWithRetry`.  State: the current page cursor, the
attempt number for that page (starting at 1), the records delivered so
far and the sleeps performed.  On a 429 it sleeps `backoffDelay` and
retries the same page unless `noRetry` is set or the attempt ceiling is
reached, in which case it raises a rate-limit error carrying the
delivered count; any other failure propagates immediately; a successful
page's records are delivered once and the cursor advances. -/
def runRetryStream {α : Type} (cfg : RetryConfig) :
    List (FetchOutcome α) → Option String → Nat → List α → List Nat → RetryResult α
  | [], _, _, _, _ => .scriptExhausted
  | o :: rest, tok, attempt, delivered, sleeps =>
    match o with
    | .ok page =>
      match page.next with
      | none => .completed (delivered ++ page.rdata) sleeps
      | some t => runRetryStream cfg rest (some t) 1 (delivered ++ page.rdata) sleeps
    | .rateLimited =>
      if cfg.noRetry = true ∨ attempt ≥ cfg.maxAttempts then
        .rateLimitError delivered.length delivered sleeps
      else
        runRetryStream cfg rest tok (attempt + 1) delivered (sleeps ++ [backoffDelay cfg attempt])
    | .failed msg => .otherError msg delivered.length delivered sleeps

/-- Modelled from the spec: a whole `streamWithRetry` run against a
response script: first page, attempt 1, nothing delivered. -/
def streamWithRetry {α : Type} (cfg : RetryConfig) (script : List (FetchOutcome α)) :
    RetryResult α :=
  runRetryStream cfg script none 1 [] []

/-- The configuration `describe.ts` (lines 90-94, 255-261) passes in the
retrying (default) mode. -/
def cliRetryConfig : RetryConfig :=
  { pageSize := 100, initialBackoffMs := 1000, maxBackoffMs := 30000,
    maxAttempts := 5, noRetry := false }

/-- The single page of the C4 script examples. -/
def c4page : SpintaResponse String := { rdata := ["r1", "r2"], next := none }

/-- C4: a 429 below the attempt ceiling (and not in no-retry mode) sleeps
`min(initialBackoff × 2^(attempt−1), maxBackoff)` and retries the same
page with nothing re-delivered; at the ceiling or in no-retry mode it
raises a rate-limit error reporting the delivered count; a non-429 error
propagates immediately with no sleep; and under the CLI configuration the
script [429, 429, 200] sleeps 1000 then 2000 ms and delivers the page's
records exactly once, while five straight 429s fail reporting 0 records. -/
theorem C4_retry_backoff :
    (∀ (cfg : RetryConfig) (rest : List (FetchOutcome String)) (tok : Option String)
        (a : Nat) (d : List String) (s : List Nat),
      cfg.noRetry = false → a < cfg.maxAttempts →
      runRetryStream cfg (.rateLimited :: rest) tok a d s
        = runRetryStream cfg rest tok (a + 1)
            d (s ++ [min (cfg.initialBackoffMs * 2 ^ (a - 1)) cfg.maxBackoffMs]))
    ∧ (∀ (cfg : RetryConfig) (rest : List (FetchOutcome String)) (tok : Option String)
        (a : Nat) (d : List String) (s : List Nat),
      cfg.noRetry = true ∨ a ≥ cfg.maxAttempts →
      runRetryStream cfg (.rateLimited :: rest) tok a d s
        = .rateLimitError d.length d s)
    ∧ (∀ (cfg : RetryConfig) (rest : List (FetchOutcome String)) (tok : Option String)
        (a : Nat) (d : List String) (s : List Nat) (msg : String),
      runRetryStream cfg (.failed msg :: rest) tok a d s
        = .otherError msg d.length d s)
    ∧ streamWithRetry cliRetryConfig [.rateLimited, .rateLimited, .ok c4page]
        = .completed ["r1", "r2"] [1000, 2000]
    ∧ streamWithRetry cliRetryConfig (List.replicate 5 .rateLimited)
        = .rateLimitError 0 ([] : List String) [1000, 2000, 4000, 8000]
    ∧ streamWithRetry { cliRetryConfig with noRetry := true }
        ([.rateLimited] : List (FetchOutcome String))
        = .rateLimitError 0 [] [] := by
  refine ⟨?_, ?_, ?_, by decide, by decide, by decide⟩
  · intro cfg rest tok a d s hnr ha
    rw [runRetryStream, if_neg, backoffDelay]
    rw [hnr]
    simp
    omega
  · intro cfg rest tok a d s h
    rw [runRetryStream, if_pos h]
  · intro cfg rest tok a d s msg
    rfl

/-- Witness for C4: one below-ceiling 429 under the CLI configuration. -/
theorem C4_retry_backoff_witness :
    runRetryStream cliRetryConfig ([.rateLimited] : List (FetchOutcome String))
        none 1 [] []
      = runRetryStream cliRetryConfig ([] : List (FetchOutcome String))
          none 2 []
          ([] ++ [min (cliRetryConfig.initialBackoffMs * 2 ^ (1 - 1))
            cliRetryConfig.maxBackoffMs]) :=
  C4_retry_backoff.1 cliRetryConfig [] none 1 [] [] (by decide) (by decide)

/-! ## Namespace-discovery throttle (`SpintaClient.discoverModels`,
lines 298-341)

`throttledFetch` reads the shared `lastRequestTime`, sleeps
`minRequestIntervalMs - elapsed` when the elapsed time is too short, and
only after waking writes `lastRequestTime = Date.now()` and issues the
request — it never re-checks after the sleep.  A batch
`Promise.all(batch.map(subNs => traverse(subNs)))` runs each member's
prologue synchronously in member order within one tick of the
single-threaded event loop; timers with equal deadlines fire in
scheduling order.  `syncPhase` transcribes the prologues at tick `t`
against the shared timestamp: an immediate starter updates the timestamp
and starts at `t`; a sleeper commits to waking at
`lastRequestTime + minRequestIntervalMs` (the timestamp it read, plus the
interval) without touching the shared state.  The request start times of
the batch are then the immediate starts followed by the wake times. -/

/-- `minRequestIntervalMs` (`SpintaClient.ts`, line 300). -/
def minRequestIntervalMs : Int := 50

/-- Synchronous prologues of `k` batch members at tick `t` with shared
timestamp `last`: returns the final timestamp, the immediate start times,
and the committed wake times in member order. -/
def syncPhase (t minInterval : Int) : Nat → Int → Int × List Int × List Int
  | 0, last => (last, [], [])
  | k + 1, last =>
    if t - last < minInterval then
      let r := syncPhase t minInterval k last
      (r.1, r.2.1, (last + minInterval) :: r.2.2)
    else
      let r := syncPhase t minInterval k t
      (r.1, t :: r.2.1, r.2.2)

/-- Request start times of one discovery batch of `k` sibling namespaces
entering `throttledFetch` at tick `t` with shared timestamp
`lastRequestTime`. -/
def simulateBatchStarts (lastRequestTime t : Int) (k : Nat) : List Int :=
  let r := syncPhase t minRequestIntervalMs k lastRequestTime
  r.2.1 ++ r.2.2

/-- Adjacent spacing check for a chronologically ordered list of start
times: every next start is at least `d` ms after the previous one. -/
def adjacentSpaced (d : Int) : List Int → Bool
  | [] => true
  | [_] => true
  | a :: b :: rest => decide (b - a ≥ d) && adjacentSpaced d (b :: rest)

/-- C8 counter-evidence: with three sibling namespaces in one batch
(concurrency ≥ 3), entering at tick 1000 with the previous request 1000 ms
earlier, members 2 and 3 both read the same `lastRequestTime` before
either updates it, sleep the same 50 ms, and start simultaneously at
1050 — 0 ms apart, violating the minimum spacing the claim (and the
code's own comment, line 300) promises. -/
theorem C8_throttle_simultaneous_starts :
    simulateBatchStarts 0 1000 3 = [1000, 1050, 1050]
    ∧ adjacentSpaced minRequestIntervalMs [1000, 1050, 1050] = false := by
  constructor <;> decide
